import Mathlib

/-!
Verification development for the Steam hybrid recommender
(`src/recommender/hybrid_recommender.py`, `src/evaluator/evaluator.py`,
`src/api.py`).

The Python code is shallowly embedded as executable Lean definitions:

* `pandas` DataFrames become lists of records (`Game`, `Rating`); row order
  is list order, and `DataFrame.copy()` is the identity on values.
* Machine floats become `ℚ`.  The TF-IDF matrix produced by
  `TfidfVectorizer` (which l2-normalizes every nonzero row) is carried as
  abstract data; since its rows are unit vectors (or zero), the
  `cosine_similarity` of two rows equals their dot product, and we embed it
  as such.  The numeric output of `TfidfVectorizer.fit_transform` and of
  `NMF.fit` are inputs of the embedding (oracle parameters of `fit`), never
  recomputed: no claim depends on the actual factorization values.
* `NMF.transform` applied to a row of the training matrix is carried as the
  model's own function field `transform`; `NMF.components_` is the field
  `components`.
* Fallible Python operations (attribute access on an unfitted model,
  `iloc[0]` on an empty frame, `x in None`, integer modulo by zero) are
  embedded in `Except String`.
* `np.argsort` (whose tie order numpy leaves unspecified) is modelled as a
  stable ascending sort; no theorem below depends on the order of ties,
  and the concrete inputs of counterexamples are chosen so that any tie
  order yields the same titles.
-/

namespace SteamRec

/-- Worker for `dedupFirst`: drop elements already in `seen`, remember new
ones.  Structural recursion, so concrete runs reduce in the kernel. -/
def dedupFirstAux {α : Type} [DecidableEq α] (seen : List α) : List α → List α
  | [] => []
  | a :: l => if a ∈ seen then dedupFirstAux seen l else a :: dedupFirstAux (a :: seen) l

/-- Python `list(dict.fromkeys(l))` and `pandas.unique`: remove duplicates
keeping the first occurrence, preserving order. -/
def dedupFirst {α : Type} [DecidableEq α] (l : List α) : List α := dedupFirstAux [] l

theorem mem_dedupFirstAux {α : Type} [DecidableEq α] {a : α} :
    ∀ {l seen : List α}, a ∈ dedupFirstAux seen l ↔ a ∈ l ∧ a ∉ seen
  | [], seen => by simp [dedupFirstAux]
  | b :: l, seen => by
    rw [dedupFirstAux]
    by_cases hb : b ∈ seen
    · rw [if_pos hb, mem_dedupFirstAux]
      constructor
      · exact fun h => ⟨List.mem_cons_of_mem _ h.1, h.2⟩
      · rintro ⟨h1, h2⟩
        rcases List.mem_cons.1 h1 with rfl | h1
        · exact absurd hb h2
        · exact ⟨h1, h2⟩
    · rw [if_neg hb]
      by_cases hab : a = b
      · subst hab; simp [hb]
      · simp only [List.mem_cons, hab, false_or]
        rw [mem_dedupFirstAux]
        simp [List.mem_cons, hab]

theorem mem_dedupFirst {α : Type} [DecidableEq α] {a : α} {l : List α} :
    a ∈ dedupFirst l ↔ a ∈ l := by
  rw [dedupFirst, mem_dedupFirstAux]
  simp

theorem nodup_dedupFirstAux {α : Type} [DecidableEq α] :
    ∀ (l seen : List α), (dedupFirstAux seen l).Nodup
  | [], _ => by simp [dedupFirstAux]
  | b :: l, seen => by
    rw [dedupFirstAux]
    by_cases hb : b ∈ seen
    · rw [if_pos hb]; exact nodup_dedupFirstAux l seen
    · rw [if_neg hb]
      refine List.nodup_cons.2 ⟨?_, nodup_dedupFirstAux l (b :: seen)⟩
      intro hmem
      exact (mem_dedupFirstAux.1 hmem).2 (List.mem_cons_self b seen)

theorem nodup_dedupFirst {α : Type} [DecidableEq α] (l : List α) : (dedupFirst l).Nodup :=
  nodup_dedupFirstAux l []

theorem dedupFirstAux_eq_self {α : Type} [DecidableEq α] :
    ∀ {l seen : List α}, l.Nodup → (∀ x ∈ l, x ∉ seen) → dedupFirstAux seen l = l
  | [], _, _, _ => rfl
  | b :: l, seen, h, hdisj => by
    rw [dedupFirstAux, if_neg (hdisj b (List.mem_cons_self b l))]
    congr 1
    refine dedupFirstAux_eq_self (List.nodup_cons.1 h).2 ?_
    intro x hx
    intro hmem
    rcases List.mem_cons.1 hmem with rfl | hmem2
    · exact (List.nodup_cons.1 h).1 hx
    · exact hdisj x (List.mem_cons_of_mem _ hx) hmem2

theorem dedupFirst_eq_self {α : Type} [DecidableEq α] {l : List α} (h : l.Nodup) :
    dedupFirst l = l :=
  dedupFirstAux_eq_self h (by simp)

theorem length_dedupFirstAux {α : Type} [DecidableEq α] :
    ∀ (l seen : List α), (dedupFirstAux seen l).length = (l.toFinset \ seen.toFinset).card
  | [], seen => by simp [dedupFirstAux]
  | b :: l, seen => by
    rw [dedupFirstAux]
    by_cases hb : b ∈ seen
    · rw [if_pos hb, length_dedupFirstAux l seen]
      congr 1
      ext x
      simp only [List.toFinset_cons, Finset.mem_sdiff, Finset.mem_insert, List.mem_toFinset]
      constructor
      · rintro ⟨hx, hns⟩
        exact ⟨Or.inr hx, hns⟩
      · rintro ⟨rfl | hx, hns⟩
        · exact absurd hb hns
        · exact ⟨hx, hns⟩
    · rw [if_neg hb]
      simp only [List.length_cons, length_dedupFirstAux l (b :: seen)]
      have hkey : (b :: l).toFinset \ seen.toFinset
          = insert b (l.toFinset \ (b :: seen).toFinset) := by
        ext x
        simp only [List.toFinset_cons, Finset.mem_sdiff, Finset.mem_insert,
          List.mem_toFinset]
        by_cases hxb : x = b
        · subst hxb; simp [hb]
        · simp [hxb]
      have hnm : b ∉ l.toFinset \ (b :: seen).toFinset := by
        simp
      rw [hkey, Finset.card_insert_of_not_mem hnm]

theorem length_dedupFirst {α : Type} [DecidableEq α] (l : List α) :
    (dedupFirst l).length = l.toFinset.card := by
  rw [dedupFirst, length_dedupFirstAux]
  simp

/-- One row of the games table (`games_df`): columns `gameId`, `title`,
`genres`.  `genres` is `Option String`, with `none` playing the role of a
pandas `NaN` (filled by `fillna("")` during content fit). -/
structure Game where
  gameId : Nat
  title : String
  genres : Option String
deriving DecidableEq, Repr

/-- One row of the ratings table (`ratings_df`): columns `userId`, `gameId`,
`rating`.  Float ratings are embedded as `ℚ`. -/
structure Rating where
  userId : Nat
  gameId : Nat
  rating : ℚ
deriving DecidableEq, Repr

/-! ### Kernel-reducible rational arithmetic

Mathlib's `ℚ` operations do not reduce definitionally (their normalization
step blocks `decide`/`rfl` on concrete inputs), so the embedding spells
rational arithmetic through the reducible constructor `mkRat`.  The
`..._eq` lemmas identify each spelling with the standard operation, so the
definitions below really are addition, multiplication and division of
rational numbers. -/

/-- Rational addition, spelled reducibly. -/
def qadd (a b : ℚ) : ℚ := mkRat (a.num * b.den + b.num * a.den) (a.den * b.den)

/-- Rational multiplication, spelled reducibly. -/
def qmul (a b : ℚ) : ℚ := mkRat (a.num * b.num) (a.den * b.den)

/-- Rational inverse, spelled reducibly (`0⁻¹ = 0`, as in `ℚ`). -/
def qinv (b : ℚ) : ℚ := mkRat (Int.sign b.num * b.den) b.num.natAbs

/-- Rational division, spelled reducibly. -/
def qdiv (a b : ℚ) : ℚ := qmul a (qinv b)

/-- Sum of a list of rationals, spelled reducibly. -/
def qsum (l : List ℚ) : ℚ := l.foldr qadd 0

theorem qadd_eq (a b : ℚ) : qadd a b = a + b := by
  rw [qadd, Rat.mkRat_eq_div]
  conv_rhs => rw [← Rat.num_div_den a, ← Rat.num_div_den b]
  have ha : ((a.den : ℚ)) ≠ 0 := by positivity
  have hb : ((b.den : ℚ)) ≠ 0 := by positivity
  field_simp

theorem qmul_eq (a b : ℚ) : qmul a b = a * b := by
  rw [qmul, Rat.mkRat_eq_div]
  conv_rhs => rw [← Rat.num_div_den a, ← Rat.num_div_den b]
  have ha : ((a.den : ℚ)) ≠ 0 := by positivity
  have hb : ((b.den : ℚ)) ≠ 0 := by positivity
  field_simp

theorem qinv_eq (b : ℚ) : qinv b = b⁻¹ := by
  rw [qinv, Rat.inv_def', Rat.mkRat_eq_divInt]
  rcases lt_trichotomy b.num 0 with h | h | h
  · have hsign : Int.sign b.num = -1 := Int.sign_eq_neg_one_of_neg h
    have hna : (b.num.natAbs : ℤ) = -b.num := by
      rw [Int.ofNat_natAbs_of_nonpos (le_of_lt h)]
    rw [hsign, hna]
    rw [show (-1 * (b.den : ℤ)) = -(b.den : ℤ) by ring]
    rw [Rat.neg_divInt_neg]
  · have h0 : b.num = 0 := h
    simp [h0]
  · have hsign : Int.sign b.num = 1 := Int.sign_eq_one_of_pos h
    have hna : (b.num.natAbs : ℤ) = b.num := Int.natAbs_of_nonneg (le_of_lt h)
    rw [hsign, hna, one_mul]

theorem qdiv_eq (a b : ℚ) : qdiv a b = a / b := by
  rw [qdiv, qmul_eq, qinv_eq, div_eq_mul_inv]

theorem qsum_eq (l : List ℚ) : qsum l = l.sum := by
  induction l with
  | nil => rfl
  | cons a l ih => rw [qsum, List.foldr_cons, qadd_eq, List.sum_cons]; rw [qsum] at ih; rw [ih]

/-- The rating threshold `2.5` defining a "liked" interaction, spelled
reducibly. -/
def likeThreshold : ℚ := mkRat 5 2

theorem likeThreshold_eq : likeThreshold = 5 / 2 := by
  rw [likeThreshold, Rat.mkRat_eq_div]
  norm_num

/-- Dot product of two vectors (shorter one zero-padded, mirroring that all
vectors produced by one fit share a length). -/
def dot (x y : List ℚ) : ℚ := qsum ((x.zip y).map (fun p => qmul p.1 p.2))

/-- `sklearn.metrics.pairwise.cosine_similarity` applied to rows of a
TF-IDF matrix.  `TfidfVectorizer` l2-normalizes every nonzero row, so the
cosine similarity of two rows equals their dot product (and is exactly `1`
for two identical nonzero documents); the matrices in this development are
only ever the vectorizer's output, so the embedding uses the dot product. -/
def cosSim (x y : List ℚ) : ℚ := dot x y

/-- Python slice `xs[-n:]`.  Note `xs[-0:]` is the whole list — the slice
does not shrink for `n = 0`. -/
def lastN {α : Type} (n : Nat) (xs : List α) : List α :=
  if n = 0 then xs else xs.drop (xs.length - n)

/-- `np.argsort` (ascending).  numpy's default sort leaves the order of
ties unspecified; the embedding fixes a stable order.  No theorem below
depends on the order of ties. -/
def argsortAsc (xs : List ℚ) : List Nat :=
  (List.insertionSort (fun a b : Nat × ℚ => a.2 ≤ b.2) xs.enum).map Prod.fst

/-- State of `HybridRecommender._ContentBasedRecommender`: the copied games
table plus the two attributes created by `fit` (absent — `none` — before
`fit`, when touching them raises `AttributeError`). -/
structure ContentRec where
  games_df : List Game
  tfidf_matrix : Option (List (List ℚ))
  game_indices : Option (List (String × Nat))
deriving DecidableEq

/-- `_ContentBasedRecommender.fit`, lines 128-133.  `reset_index(drop=True)`
is the identity in the list model; `fillna("")` replaces a missing genres
cell by `""`.  The numeric result of `TfidfVectorizer.fit_transform` on the
genre documents is an input (`tfidf`) of the embedding.  `game_indices` is
`pd.Series(df.index, index=df["title"]).drop_duplicates()`: its values (the
row indices) are pairwise distinct, so `Series.drop_duplicates` — which
drops duplicated values, not duplicated index labels — removes nothing, and
rows with a duplicated title each keep their entry. -/
def ContentRec.fit (tfidf : List String → List (List ℚ)) (c : ContentRec) : ContentRec :=
  let games := c.games_df.map (fun g => { g with genres := some (g.genres.getD "") })
  { games_df := games
  , tfidf_matrix := some (tfidf (games.map (fun g => g.genres.getD "")))
  , game_indices := some (games.enum.map (fun p => (p.2.title, p.1))) }

/-- Row indices stored in `game_indices` under a title label.  Pandas
`game_indices[title]` returns a scalar when one row matches and a sub-Series
when several rows share the title. -/
def lookupTitleIdxs (gi : List (String × Nat)) (title : String) : List Nat :=
  (gi.filter (fun p => p.1 == title)).map Prod.snd

/-- `_ContentBasedRecommender.recommend`, lines 135-149.
`title not in self.game_indices` raises `AttributeError` before `fit`;
an absent title returns `[]`.  With `m` matching rows,
`cosine_similarity(tfidf_matrix[idx], tfidf_matrix).flatten()` is the
row-major flattening of an `m × numRows` similarity block (`m = 1` in the
normal unique-title case); `sim_scores[idx] = 0` zeroes the flat positions
given by the matching row indices; `np.argsort(...)[-n:][::-1]` takes the
`n` largest positions (all of them for `n = 0`), and positions beyond the
games-table length — which exist only in the flattened multi-match case —
are dropped by the `i < len(self.games_df)` guard. -/
def contentTopTitles (games : List Game) (tm : List (List ℚ)) (idxs : List Nat) (n : Nat) :
    List String :=
  let row := fun i => (tm[i]?).getD []
  let simBlock := (idxs.map (fun i => (List.range tm.length).map (fun j => cosSim (row i) (row j)))).flatten
  let sim_scores := simBlock.enum.map (fun p => if p.1 ∈ idxs then (0 : ℚ) else p.2)
  let top_indices := (lastN n (argsortAsc sim_scores)).reverse
  let kept := top_indices.filter (fun i => decide (i < games.length))
  kept.map (fun i => ((games[i]?).map Game.title).getD "")

def ContentRec.recommend (c : ContentRec) (title : String) (n : Nat) : Except String (List String) :=
  match c.game_indices with
  | none => .error "AttributeError: game_indices"
  | some gi =>
    if (lookupTitleIdxs gi title).isEmpty then .ok []
    else
      match c.tfidf_matrix with
      | none => .error "AttributeError: tfidf_matrix"
      | some tm => .ok (contentTopTitles c.games_df tm (lookupTitleIdxs gi title) n)

/-- The fitted NMF factorization, as used by `recommend` (lines 76-78):
`transform` is `NMF.transform` (on a row of the training matrix it returns
that user's latent factor row) and `components` is `NMF.components_`, the
`k × numItems` item-factor matrix.  Both are data of the state — the
numerical optimizer is never re-run in the embedding. -/
structure NMFModel where
  transform : List ℚ → List ℚ
  components : List (List ℚ)

/-- Python dict lookup on an association list (the dicts built by `fit`
have pairwise-distinct keys). -/
def listLookup {α β : Type} [BEq α] (m : List (α × β)) (k : α) : Option β :=
  (m.find? (fun p => p.1 == k)).map Prod.snd

/-- State of a `HybridRecommender` instance.  The five collaborative
attributes are `None` until `fit(refit_nmf=True)` runs (constructor,
lines 28-32). -/
structure HybridRecommender where
  games_df : List Game
  ratings_df : List Rating
  content_recommender : ContentRec
  nmf_model : Option NMFModel
  user_item_matrix : Option (List (List ℚ))
  user_mapper : Option (List (Nat × Nat))
  game_mapper : Option (List (Nat × Nat))
  game_inv_mapper : Option (List (Nat × Nat))

/-- `HybridRecommender.__init__`, lines 22-32 (the CSV files are the two
tables; `games_df.copy()` passed to the content recommender is the same
value in the pure model). -/
def HybridRecommender.init (games : List Game) (ratings : List Rating) : HybridRecommender :=
  { games_df := games
  , ratings_df := ratings
  , content_recommender := { games_df := games, tfidf_matrix := none, game_indices := none }
  , nmf_model := none
  , user_item_matrix := none
  , user_mapper := none
  , game_mapper := none
  , game_inv_mapper := none }

/-- `pd.Series.nlargest(n)`: the keys of the `n` largest values, sorted by
value descending, ties kept in original order (pandas `keep="first"`). -/
def nlargestKeys (n : Nat) (series : List (Nat × ℚ)) : List Nat :=
  ((List.insertionSort (fun a b : Nat × ℚ => b.2 ≤ a.2) series).take n).map Prod.fst

/-- The collaborative branch of `HybridRecommender.recommend`, lines 71-85:
`collaborative_recs` is `[]` unless the model is fitted and the user is in
`user_mapper` (`user_id in None` would raise `TypeError`).  Predicted
affinities are the user's transformed factor row times `components_`,
indexed by `game_mapper.keys()` (the item ids of the ratings table, in
first-appearance order); items the user has rated (at any rating) are
dropped; the titles are read off `games_df` filtered by membership of its
`gameId` in the top-`n` ids — in games-table row order.
First, lines 76-79: the predicted-affinity series — the transformed user
factor row times `components_`, indexed by `game_mapper.keys()`. -/
def collabScoresSeries (model : NMFModel) (gm : List (Nat × Nat)) (user_vector : List ℚ) :
    List (Nat × ℚ) :=
  let user_P := model.transform user_vector
  let item_Q := model.components
  let keys := gm.map Prod.fst
  let scores := (List.range keys.length).map
    (fun j => dot user_P (item_Q.map (fun r => (r[j]?).getD 0)))
  keys.zip scores

/-- Lines 81-82: drop every item the user has rated (at any rating value)
from the score series (`Series.drop(index=..., errors="ignore")`). -/
def dropRated (ratings : List Rating) (user_id : Nat) (series : List (Nat × ℚ)) :
    List (Nat × ℚ) :=
  let rated_games := (ratings.filter (fun r => r.userId == user_id)).map Rating.gameId
  series.filter (fun p => decide (p.1 ∉ rated_games))

/-- Line 84: the ids of the `n` items of largest predicted affinity for the
user, rated items removed. -/
def collabTopIds (ratings : List Rating) (model : NMFModel) (gm : List (Nat × Nat))
    (user_vector : List ℚ) (user_id n : Nat) : List Nat :=
  nlargestKeys n (dropRated ratings user_id (collabScoresSeries model gm user_vector))

def HybridRecommender.collabRecommend (s : HybridRecommender) (user_id n : Nat) :
    Except String (List String) :=
  match s.nmf_model with
  | none => .ok []
  | some model =>
    match s.user_mapper with
    | none => .error "TypeError: argument of type NoneType is not iterable"
    | some um =>
      match listLookup um user_id with
      | none => .ok []
      | some user_idx =>
        match s.user_item_matrix with
        | none => .error "TypeError: user_item_matrix is None"
        | some mat =>
          match mat[user_idx]? with
          | none => .error "IndexError: row index out of range"
          | some user_vector =>
            match s.game_mapper with
            | none => .error "AttributeError: NoneType has no keys"
            | some gm =>
              let top_game_ids := collabTopIds s.ratings_df model gm user_vector user_id n
              .ok ((s.games_df.filter (fun g => decide (g.gameId ∈ top_game_ids))).map Game.title)

/-- `HybridRecommender.recommend`, lines 68-89: content list, then
collaborative list, concatenated, deduplicated keeping first occurrence
(`list(dict.fromkeys(...))`), truncated to `n`. -/
def HybridRecommender.recommend (s : HybridRecommender) (user_id : Nat) (seed_title : String)
    (n : Nat) : Except String (List String) :=
  match s.content_recommender.recommend seed_title n with
  | .error e => .error e
  | .ok content_recs =>
    match s.collabRecommend user_id n with
    | .error e => .error e
    | .ok collaborative_recs =>
      .ok ((dedupFirst (content_recs ++ collaborative_recs)).take n)

/-- `HybridRecommender.fit`, lines 34-66.  The two halves run under their
flags.  `pandas.unique` keeps first-appearance order; `csr_matrix` sums
duplicate `(user, game)` entries, so cell `(u, g)` is the sum of all
ratings by `u` of `g`.  The numeric result of `NMF(...).fit` on the matrix
is an input (`nmfFit`) of the embedding; the `n_components` hyperparameter
is absorbed into that oracle. -/
def HybridRecommender.fit (s : HybridRecommender) (refit_content refit_nmf : Bool)
    (tfidf : List String → List (List ℚ)) (nmfFit : List (List ℚ) → NMFModel) :
    HybridRecommender :=
  let s1 := if refit_content then { s with content_recommender := s.content_recommender.fit tfidf } else s
  if refit_nmf then
    let user_ids := dedupFirst (s1.ratings_df.map Rating.userId)
    let game_ids := dedupFirst (s1.ratings_df.map Rating.gameId)
    let user_mapper := user_ids.enum.map (fun p => (p.2, p.1))
    let game_mapper := game_ids.enum.map (fun p => (p.2, p.1))
    let game_inv_mapper := game_mapper.map (fun p => (p.2, p.1))
    let mat := user_ids.map (fun u => game_ids.map (fun g =>
      qsum ((s1.ratings_df.filter (fun r => r.userId == u && r.gameId == g)).map Rating.rating)))
    { s1 with user_mapper := some user_mapper
            , game_mapper := some game_mapper
            , game_inv_mapper := some game_inv_mapper
            , user_item_matrix := some mat
            , nmf_model := some (nmfFit mat) }
  else s1

/-- The dictionary written by `HybridRecommender.save`, lines 91-104.  (On
a never-content-fitted instance the Python `save` would raise
`AttributeError` reading `tfidf_matrix`; bundles here carry the optional
state unchanged — all claims concern fitted instances.) -/
structure Bundle where
  nmf_model : Option NMFModel
  user_mapper : Option (List (Nat × Nat))
  game_mapper : Option (List (Nat × Nat))
  game_inv_mapper : Option (List (Nat × Nat))
  user_item_matrix : Option (List (List ℚ))
  tfidf_matrix : Option (List (List ℚ))
  game_indices : Option (List (String × Nat))
  games_df : List Game
  ratings_df : List Rating

/-- `HybridRecommender.save`, lines 91-104 (joblib serialization is the
identity on values in the model). -/
def HybridRecommender.save (s : HybridRecommender) : Bundle :=
  { nmf_model := s.nmf_model
  , user_mapper := s.user_mapper
  , game_mapper := s.game_mapper
  , game_inv_mapper := s.game_inv_mapper
  , user_item_matrix := s.user_item_matrix
  , tfidf_matrix := s.content_recommender.tfidf_matrix
  , game_indices := s.content_recommender.game_indices
  , games_df := s.games_df
  , ratings_df := s.ratings_df }

/-- `HybridRecommender.load`, lines 106-122: rebuilds the object field by
field and constructs a fresh `_ContentBasedRecommender` from the loaded
outer `games_df` (not the fit-normalized copy), then overwrites its
`tfidf_matrix` and `game_indices` with the stored ones. -/
def HybridRecommender.load (b : Bundle) : HybridRecommender :=
  { games_df := b.games_df
  , ratings_df := b.ratings_df
  , content_recommender :=
      { games_df := b.games_df
      , tfidf_matrix := b.tfidf_matrix
      , game_indices := b.game_indices }
  , nmf_model := b.nmf_model
  , user_item_matrix := b.user_item_matrix
  , user_mapper := b.user_mapper
  , game_mapper := b.game_mapper
  , game_inv_mapper := b.game_inv_mapper }

/-- Worker for `dedupByKey` carrying the key values already emitted. -/
def dedupByKeyAux {α β : Type} [DecidableEq β] (f : α → β) (seen : List β) : List α → List α
  | [] => []
  | a :: l => if f a ∈ seen then dedupByKeyAux f seen l else a :: dedupByKeyAux f (f a :: seen) l

/-- `DataFrame.drop_duplicates(subset=key)`: keep the first row for each
key value. -/
def dedupByKey {α β : Type} [DecidableEq β] (f : α → β) (l : List α) : List α :=
  dedupByKeyAux f [] l

/-- `Evaluator.fit_recommender`, line 29: `games_df.drop_duplicates(subset="title")`. -/
def games_unique (games : List Game) : List Game := dedupByKey Game.title games

/-- `Evaluator.fit_recommender`, line 30: the `title → gameId` dict (titles
are unique after the drop_duplicates, so first match suffices). -/
def title_to_id (games : List Game) (t : String) : Option Nat :=
  ((games_unique games).find? (fun g => g.title == t)).map Game.gameId

/-- `Evaluator.fit_recommender`, lines 31, 35: the key list of the
`gameId → title` dict.  Rows of `games_unique` that share a `gameId`
collapse to one dict key (first insertion position kept), hence the
`dedupFirst`. -/
def all_game_ids (games : List Game) : List Nat :=
  dedupFirst ((games_unique games).map Game.gameId)

/-- `Evaluator.fit_recommender`, line 36: position of a game id among
`all_game_ids` (the Precision@k column index). -/
def gameid_to_idx (games : List Game) (gid : Nat) : Option Nat :=
  ((all_game_ids games).indexOf? gid)

/-- `Evaluator.safe_mean`, lines 8-13: `0.0` on an empty array, otherwise
the mean (`np.nanmean`; the embedding has no NaN values). -/
def safe_mean (l : List ℚ) : ℚ := if l.length = 0 then 0 else qdiv (qsum l) ((l.length : ℕ) : ℚ)

/-- One entry of `rec_matrix` (line 103):
`gameid_to_idx.get(title_to_id.get(title, -1), -1)` — the column index of a
recommended title, `-1` when the title or its id is unmapped. -/
def recEntry (games : List Game) (t : String) : Int :=
  match title_to_id games t with
  | none => -1
  | some gid =>
    match gameid_to_idx games gid with
    | none => -1
    | some i => (i : Int)

/-- One row of `rec_matrix` (lines 100-103): the mapped first `k` titles,
padded with the matrix fill value `0` up to length `k` — the padding is
indistinguishable from a genuine reference to column `0`. -/
def recRow (games : List Game) (k : Nat) (recs : List String) : List Int :=
  let e := (recs.take k).map (recEntry games)
  e ++ List.replicate (k - e.length) 0

/-- A user's liked interactions (`rating >= 2.5`): the ground-truth set of
`liked_matrix` (line 93) and the seed pool of `generate_all_recommendations`
(lines 59-61). -/
def likedRatings (ratings : List Rating) (u : Nat) : List Rating :=
  ratings.filter (fun r => r.userId == u && decide (likeThreshold ≤ r.rating))

/-- Row `u` of `liked_matrix` (lines 90-97), as the set of column indices of
games the user rated `≥ 2.5`. -/
def likedCols (games : List Game) (ratings : List Rating) (u : Nat) : List Nat :=
  (likedRatings ratings u).filterMap (fun r => gameid_to_idx games r.gameId)

/-- Lines 106-110: a user's hit count — `none` when no entry of the user's
`rec_matrix` row is `≥ 0` (the user is then skipped), otherwise how many of
the non-negative entries (including the `0` padding) index a liked column.
(Indexing `liked_matrix` with column `0` on an empty catalog would raise in
numpy; the membership test is `False` here — no claim touches that state.) -/
def userHits (games : List Game) (ratings : List Rating) (u k : Nat) (recs : List String) :
    Option Nat :=
  let valid := (recRow games k recs).filter (fun e => decide (0 ≤ e))
  if valid.isEmpty then none
  else some (valid.countP (fun e => decide (e.toNat ∈ likedCols games ratings u)))

/-- `Evaluator.calculate_precision_at_k`, lines 80-112: `0.0` for an empty
results dict; otherwise `safe_mean` of `hits / k` over the users passing
the `valid_indices.any()` test. -/
def calculate_precision_at_k (games : List Game) (ratings : List Rating)
    (all_recommendations : List (Nat × List String)) (k : Nat) : ℚ :=
  if all_recommendations.isEmpty then 0
  else
    safe_mean (all_recommendations.filterMap
      (fun p => (userHits games ratings p.1 k p.2).map (fun h => qdiv ((h : ℕ) : ℚ) ((k : ℕ) : ℚ))))

/-- Deterministic model of `np.random.default_rng(seed)` and the pandas
samplers seeded from it.  The generator state is abstract (a `Nat`, the
seed itself initially); `choiceNoReplace` is `rng.choice(pop, size,
replace=False)`, `integers` is `rng.integers(1e6)`, and `pickIdx s m` is
the row position drawn by `DataFrame.sample(1, random_state=s)` from an
`m`-row frame — always a valid position, which is the single well-formedness
field `pick_lt`.  Everything is a pure function, as the underlying PCG64
stream is. -/
structure RngModel where
  choiceNoReplace : Nat → List Nat → Nat → List Nat × Nat
  integers : Nat → Nat × Nat
  pickIdx : Nat → Nat → Nat
  pick_lt : ∀ s m, 0 < m → pickIdx s m < m

/-- Seed-game selection for one user (`generate_all_recommendations`,
lines 59-66): a uniformly drawn liked interaction (rating `≥ 2.5`) when one
exists — whose game id is then resolved to a title by
`games_df.loc[games_df.gameId == id, "title"].iloc[0]`, an `IndexError`
when no games row matches — otherwise a uniformly drawn catalog row's
title (`ValueError` on an empty catalog). -/
def chooseSeed (rm : RngModel) (games : List Game) (ratings : List Rating)
    (user_id : Nat) (st : Nat) : Except String (String × Nat) :=
  if (likedRatings ratings user_id).isEmpty then
    match games[rm.pickIdx (rm.integers st).1 games.length]? with
    | none => .error "ValueError: cannot take a larger sample than population"
    | some g => .ok (g.title, (rm.integers st).2)
  else
    match (likedRatings ratings user_id)[rm.pickIdx (rm.integers st).1
        (likedRatings ratings user_id).length]? with
    | none => .error "unreachable: sample index out of range"
    | some r =>
      match (games.filter (fun g => g.gameId == r.gameId)).head? with
      | none => .error "IndexError: single positional indexer is out-of-bounds"
      | some g => .ok (g.title, (rm.integers st).2)

/-- The progress-cadence check (lines 72-74):
`if job_id and (i % progress_step == 0 or i == len(user_sample))`.
A falsy (`0`) `job_id` short-circuits; with a truthy `job_id`,
`i % progress_step` raises `ZeroDivisionError` when `progress_step == 0`.
The `update_job_progress` write is an external side effect, not modelled. -/
def progressCheck (job_id i progress_step total : Nat) : Except String Unit :=
  if job_id ≠ 0 then
    if progress_step = 0 then .error "ZeroDivisionError: integer division or modulo by zero"
    else
      let _ := (i % progress_step == 0 || i == total)
      .ok ()
  else .ok ()

/-- The per-user loop of `Evaluator.generate_all_recommendations`,
lines 57-74, recording for each processed user the chosen seed title and
the stored recommendation list (`recs if recs else []`).  The blender call
is the injected `recommend` (the code's `self.recommender.recommend` with
`n` applied); there is no `try/except` around the body, so an error from
seed selection, from `recommend`, or from the progress check propagates
and ends the whole call. -/
def evalTrace (rm : RngModel) (recommend : Nat → String → Except String (List String))
    (games : List Game) (ratings : List Rating) (job_id progress_step total : Nat) :
    List Nat → Nat → Nat → Except String (List (Nat × String × List String))
  | [], _, _ => .ok []
  | u :: rest, i, st =>
    match chooseSeed rm games ratings u st with
    | .error e => .error e
    | .ok (seed, st1) =>
      match recommend u seed with
      | .error e => .error e
      | .ok recs =>
        match progressCheck job_id i progress_step total with
        | .error e => .error e
        | .ok _ =>
          match evalTrace rm recommend games ratings job_id progress_step total rest (i + 1) st1 with
          | .error e => .error e
          | .ok tail => .ok ((u, seed, if recs.isEmpty then [] else recs) :: tail)

/-- Line 52: `ratings_df["userId"].unique()` (first-appearance order). -/
def uniqueUsers (ratings : List Rating) : List Nat := dedupFirst (ratings.map Rating.userId)

/-- Line 53: `rng.choice(unique_users, size=min(max_users, len(unique_users)),
replace=False)` — the sampled user list together with the advanced
generator state. -/
def sampledUsers (rm : RngModel) (ratings : List Rating) (max_users random_state : Nat) :
    List Nat × Nat :=
  rm.choiceNoReplace random_state (uniqueUsers ratings)
    (min max_users (uniqueUsers ratings).length)

/-- `Evaluator.generate_all_recommendations`, lines 38-78: sample
`min(max_users, #users)` distinct users from the seeded generator, run the
per-user loop with the counter starting at `1`, and return the
`userId → recommendations` dict (the seed titles are internal). -/
def generate_all_recommendations (rm : RngModel)
    (recommend : Nat → String → Except String (List String))
    (games : List Game) (ratings : List Rating)
    (job_id max_users random_state progress_step : Nat) :
    Except String (List (Nat × List String)) :=
  let sampled := sampledUsers rm ratings max_users random_state
  (evalTrace rm recommend games ratings job_id progress_step sampled.1.length sampled.1 1 sampled.2).map
    (fun l => l.map (fun t => (t.1, t.2.2)))

/-- The selection made by one run of `generate_all_recommendations`: the
processed `(user, seed title)` pairs in order (the recommendation lists
projected away). -/
def seedTrace (rm : RngModel) (recommend : Nat → String → Except String (List String))
    (games : List Game) (ratings : List Rating)
    (job_id max_users random_state progress_step : Nat) :
    Except String (List (Nat × String)) :=
  let sampled := sampledUsers rm ratings max_users random_state
  Except.map (List.map (fun e => (e.1, e.2.1)))
    (evalTrace rm recommend games ratings job_id progress_step sampled.1.length sampled.1 1 sampled.2)

/-- `run_evaluation_job`, `src/api.py` line 117: the cadence the API passes
to the evaluator is `int(max_users/100)`. -/
def api_progress_step (max_users : Nat) : Nat := max_users / 100

/-- Decidable equality of `Except` results, for evaluating the embedding
on concrete inputs. -/
instance {ε α : Type} [DecidableEq ε] [DecidableEq α] : DecidableEq (Except ε α) := fun a b =>
  match a, b with
  | .error e1, .error e2 =>
    if h : e1 = e2 then isTrue (by rw [h]) else isFalse (by intro hh; cases hh; exact h rfl)
  | .error _, .ok _ => isFalse (by intro hh; cases hh)
  | .ok _, .error _ => isFalse (by intro hh; cases hh)
  | .ok a1, .ok a2 =>
    if h : a1 = a2 then isTrue (by rw [h]) else isFalse (by intro hh; cases hh; exact h rfl)

/-! ### Unfolding equations for `recommend` -/

theorem recommend_ok_eq (s : HybridRecommender) (u n : Nat) (t : String)
    (c k : List String)
    (hc : s.content_recommender.recommend t n = .ok c)
    (hk : s.collabRecommend u n = .ok k) :
    s.recommend u t n = .ok ((dedupFirst (c ++ k)).take n) := by
  unfold HybridRecommender.recommend
  rw [hc, hk]

theorem recommend_content_error (s : HybridRecommender) (u n : Nat) (t : String)
    (e : String) (hc : s.content_recommender.recommend t n = .error e) :
    s.recommend u t n = .error e := by
  unfold HybridRecommender.recommend
  rw [hc]

theorem recommend_collab_error (s : HybridRecommender) (u n : Nat) (t : String)
    (c : List String) (e : String)
    (hc : s.content_recommender.recommend t n = .ok c)
    (hk : s.collabRecommend u n = .error e) :
    s.recommend u t n = .error e := by
  unfold HybridRecommender.recommend
  rw [hc, hk]

/-! ### Concrete fixtures used by witnesses and counterexamples

The TF-IDF oracle values below record what `TfidfVectorizer` actually
produces on the given genre columns: all fixture rows carry the single
genre token `"action"`, so the vocabulary is one term and every document's
normalized TF-IDF vector is exactly `[1]`. -/

/-- Two games with distinct titles and identical genre text. -/
def gamesAB : List Game := [⟨1, "A", some "action"⟩, ⟨2, "B", some "action"⟩]

/-- Three games, two of which share the title `"A"`, identical genre text. -/
def gamesAAB : List Game := [⟨1, "A", some "action"⟩, ⟨2, "A", some "action"⟩, ⟨3, "B", some "action"⟩]

/-- Three games with distinct titles and ids. -/
def gamesABC : List Game := [⟨1, "A", some "action"⟩, ⟨2, "B", some "action"⟩, ⟨3, "C", some "action"⟩]

/-- Ratings: user `7` rated game `3`; user `8` rated games `1` and `2`
(so the candidate item universe of the factor model is `[3, 1, 2]`). -/
def ratingsC4 : List Rating := [⟨7, 3, 4⟩, ⟨8, 1, 3⟩, ⟨8, 2, 3⟩]

/-- TF-IDF oracle for a two-row genre column of identical documents. -/
def tfidf2 : List String → List (List ℚ) := fun _ => [[1], [1]]

/-- TF-IDF oracle for a three-row genre column of identical documents. -/
def tfidf3 : List String → List (List ℚ) := fun _ => [[1], [1], [1]]

/-- A concrete fitted factorization: every user's latent row is `[1]` and
the item factor matrix has one latent dimension scoring the three candidate
items (in `game_mapper` key order `[3, 1, 2]`) as `0`, `1`, `2`. -/
def nmfModelC4 : NMFModel := { transform := fun _ => [1], components := [[0, 1, 2]] }

/-- NMF oracle returning `nmfModelC4` whatever the training matrix is. -/
def nmfFitC4 : List (List ℚ) → NMFModel := fun _ => nmfModelC4

/-- Content-only fitted recommender over `gamesAB` (factor model unfitted). -/
def stAB : HybridRecommender := (HybridRecommender.init gamesAB []).fit true false tfidf2 nmfFitC4

/-- Content-only fitted recommender over `gamesAAB` (duplicate title). -/
def stAAB : HybridRecommender := (HybridRecommender.init gamesAAB []).fit true false tfidf3 nmfFitC4

/-- Fully fitted recommender over `gamesABC` and `ratingsC4`. -/
def stABC : HybridRecommender := (HybridRecommender.init gamesABC ratingsC4).fit true true tfidf3 nmfFitC4

/-- A deterministic instantiation of the RNG model: `choice` takes the
sample prefix, `integers` streams the state, `sample(1, ...)` picks row 0. -/
def rmTest : RngModel :=
  { choiceNoReplace := fun st pop size => (pop.take size, st + 1)
  , integers := fun st => (st, st + 1)
  , pickIdx := fun _ _ => 0
  , pick_lt := fun _ _ h => h }

/-- A blender stub whose `recommend` always succeeds with an empty list. -/
def recConst : Nat → String → Except String (List String) := fun _ _ => .ok []

/-- A blender stub whose `recommend` always succeeds with `["A"]`. -/
def recConstA : Nat → String → Except String (List String) := fun _ _ => .ok ["A"]

/-! ### Structural lemmas about the two pipelines -/

theorem lastN_sublist {α : Type} (n : Nat) (l : List α) : List.Sublist (lastN n l) l := by
  rw [lastN]
  split
  · exact List.Sublist.refl l
  · exact List.drop_sublist _ l

theorem lastN_length_le {α : Type} {n : Nat} (l : List α) (hn : n ≠ 0) :
    (lastN n l).length ≤ n := by
  rw [lastN, if_neg hn, List.length_drop]
  omega

theorem argsortAsc_nodup (xs : List ℚ) : (argsortAsc xs).Nodup := by
  have hperm : List.Perm (argsortAsc xs) (xs.enum.map Prod.fst) := by
    rw [argsortAsc]
    exact List.Perm.map Prod.fst (List.perm_insertionSort _ xs.enum)
  exact (List.Perm.nodup_iff hperm).2 (List.nodup_enum_map_fst xs)

theorem contentTopTitles_nodup (games : List Game) (tm : List (List ℚ)) (idxs : List Nat)
    (n : Nat) (hnd : (games.map Game.title).Nodup) :
    (contentTopTitles games tm idxs n).Nodup := by
  unfold contentTopTitles
  apply List.Nodup.map_on
  · intro x hx y hy hxy
    have hxl : x < games.length := by simpa using (List.of_mem_filter hx)
    have hyl : y < games.length := by simpa using (List.of_mem_filter hy)
    have ex : ((games[x]?).map Game.title).getD "" = games[x].title := by
      rw [List.getElem?_eq_getElem hxl]; rfl
    have ey : ((games[y]?).map Game.title).getD "" = games[y].title := by
      rw [List.getElem?_eq_getElem hyl]; rfl
    rw [ex, ey] at hxy
    have hxm : (games.map Game.title)[x]? = (games.map Game.title)[y]? := by
      rw [List.getElem?_map, List.getElem?_map, List.getElem?_eq_getElem hxl,
        List.getElem?_eq_getElem hyl]
      simp [hxy]
    exact List.getElem?_inj (by simpa using hxl) (by simpa using hnd) hxm
  · apply List.Nodup.sublist (List.filter_sublist _)
    exact List.nodup_reverse.2 (List.Nodup.sublist (lastN_sublist _ _) (argsortAsc_nodup _))

theorem contentTopTitles_length_le (games : List Game) (tm : List (List ℚ)) (idxs : List Nat)
    {n : Nat} (hn : 1 ≤ n) : (contentTopTitles games tm idxs n).length ≤ n := by
  unfold contentTopTitles
  rw [List.length_map]
  apply le_trans (List.length_filter_le _ _)
  rw [List.length_reverse]
  exact lastN_length_le _ (by omega)

theorem content_recommend_missing_eq (c : ContentRec) (t : String) (n : Nat)
    (gi : List (String × Nat)) (hgi : c.game_indices = some gi)
    (he : (lookupTitleIdxs gi t).isEmpty = true) : c.recommend t n = .ok [] := by
  simp [ContentRec.recommend, hgi, he]

theorem content_recommend_found_eq (c : ContentRec) (t : String) (n : Nat)
    (gi : List (String × Nat)) (tm : List (List ℚ))
    (hgi : c.game_indices = some gi) (htm : c.tfidf_matrix = some tm)
    (hne : (lookupTitleIdxs gi t).isEmpty = false) :
    c.recommend t n = .ok (contentTopTitles c.games_df tm (lookupTitleIdxs gi t) n) := by
  simp [ContentRec.recommend, hgi, htm, hne]

theorem content_recommend_cases (c : ContentRec) (t : String) (n : Nat) (cl : List String)
    (h : c.recommend t n = .ok cl) :
    cl = [] ∨ ∃ gi tm, c.game_indices = some gi ∧ c.tfidf_matrix = some tm ∧
      (lookupTitleIdxs gi t).isEmpty = false ∧
      cl = contentTopTitles c.games_df tm (lookupTitleIdxs gi t) n := by
  cases hgi : c.game_indices with
  | none => simp [ContentRec.recommend, hgi] at h
  | some gi =>
    by_cases he : (lookupTitleIdxs gi t).isEmpty
    · left
      rw [content_recommend_missing_eq c t n gi hgi he] at h
      exact (Except.ok.inj h).symm
    · cases htm : c.tfidf_matrix with
      | none => simp [ContentRec.recommend, hgi, htm, he] at h
      | some tm =>
        right
        refine ⟨gi, tm, rfl, rfl, by simpa using he, ?_⟩
        rw [content_recommend_found_eq c t n gi tm hgi htm (by simpa using he)] at h
        exact (Except.ok.inj h).symm

theorem content_recommend_nodup (c : ContentRec) (t : String) (n : Nat) (cl : List String)
    (hnd : (c.games_df.map Game.title).Nodup) (h : c.recommend t n = .ok cl) : cl.Nodup := by
  rcases content_recommend_cases c t n cl h with rfl | ⟨gi, tm, _, _, _, rfl⟩
  · exact List.nodup_nil
  · exact contentTopTitles_nodup _ _ _ _ hnd

theorem content_recommend_length_le (c : ContentRec) (t : String) {n : Nat} (cl : List String)
    (hn : 1 ≤ n) (h : c.recommend t n = .ok cl) : cl.length ≤ n := by
  rcases content_recommend_cases c t n cl h with rfl | ⟨gi, tm, _, _, _, rfl⟩
  · simp
  · exact contentTopTitles_length_le _ _ _ hn

theorem collabRecommend_no_model (s : HybridRecommender) (u n : Nat)
    (hm : s.nmf_model = none) : s.collabRecommend u n = .ok [] := by
  simp [HybridRecommender.collabRecommend, hm]

theorem collabRecommend_unknown_user (s : HybridRecommender) (u n : Nat)
    (model : NMFModel) (um : List (Nat × Nat))
    (hm : s.nmf_model = some model) (hum : s.user_mapper = some um)
    (hu : listLookup um u = none) : s.collabRecommend u n = .ok [] := by
  simp [HybridRecommender.collabRecommend, hm, hum, hu]

theorem collabRecommend_known_eq (s : HybridRecommender) (u n : Nat)
    (model : NMFModel) (um gm : List (Nat × Nat)) (uidx : Nat)
    (mat : List (List ℚ)) (vec : List ℚ)
    (hm : s.nmf_model = some model) (hum : s.user_mapper = some um)
    (hu : listLookup um u = some uidx) (hmat : s.user_item_matrix = some mat)
    (hvec : mat[uidx]? = some vec) (hgm : s.game_mapper = some gm) :
    s.collabRecommend u n =
      .ok ((s.games_df.filter
        (fun g => decide (g.gameId ∈ collabTopIds s.ratings_df model gm vec u n))).map
          Game.title) := by
  simp [HybridRecommender.collabRecommend, hm, hum, hu, hmat, hvec, hgm]

theorem collabRecommend_cases (s : HybridRecommender) (u n : Nat) (k : List String)
    (h : s.collabRecommend u n = .ok k) :
    k = [] ∨ ∃ model gm vec, k = (s.games_df.filter
      (fun g => decide (g.gameId ∈ collabTopIds s.ratings_df model gm vec u n))).map
        Game.title := by
  cases hm : s.nmf_model with
  | none =>
    rw [collabRecommend_no_model s u n hm] at h
    exact Or.inl (Except.ok.inj h).symm
  | some model =>
    cases hum : s.user_mapper with
    | none => simp [HybridRecommender.collabRecommend, hm, hum] at h
    | some um =>
      cases hu : listLookup um u with
      | none =>
        rw [collabRecommend_unknown_user s u n model um hm hum hu] at h
        exact Or.inl (Except.ok.inj h).symm
      | some uidx =>
        cases hmat : s.user_item_matrix with
        | none => simp [HybridRecommender.collabRecommend, hm, hum, hu, hmat] at h
        | some mat =>
          cases hvec : mat[uidx]? with
          | none => simp [HybridRecommender.collabRecommend, hm, hum, hu, hmat, hvec] at h
          | some vec =>
            cases hgm : s.game_mapper with
            | none => simp [HybridRecommender.collabRecommend, hm, hum, hu, hmat, hvec, hgm] at h
            | some gm =>
              rw [collabRecommend_known_eq s u n model um gm uidx mat vec hm hum hu hmat
                hvec hgm] at h
              exact Or.inr ⟨model, gm, vec, (Except.ok.inj h).symm⟩

theorem nlargestKeys_length_le (n : Nat) (series : List (Nat × ℚ)) :
    (nlargestKeys n series).length ≤ n := by
  rw [nlargestKeys, List.length_map]
  exact List.length_take_le _ _

theorem collabRecommend_nodup (s : HybridRecommender) (u n : Nat) (k : List String)
    (hnd : (s.games_df.map Game.title).Nodup) (h : s.collabRecommend u n = .ok k) :
    k.Nodup := by
  rcases collabRecommend_cases s u n k h with rfl | ⟨model, gm, vec, rfl⟩
  · exact List.nodup_nil
  · exact List.Nodup.sublist (List.Sublist.map Game.title (List.filter_sublist _)) hnd

theorem collabRecommend_length_le (s : HybridRecommender) (u n : Nat) (k : List String)
    (hids : (s.games_df.map Game.gameId).Nodup) (h : s.collabRecommend u n = .ok k) :
    k.length ≤ n := by
  rcases collabRecommend_cases s u n k h with rfl | ⟨model, gm, vec, rfl⟩
  · exact Nat.zero_le n
  · set top := collabTopIds s.ratings_df model gm vec u n with htop
    set fl := s.games_df.filter (fun g => decide (g.gameId ∈ top)) with hfl
    have hidnd : (fl.map Game.gameId).Nodup :=
      List.Nodup.sublist (List.Sublist.map Game.gameId (List.filter_sublist _)) hids
    have hsub : fl.map Game.gameId ⊆ top := by
      intro x hx
      rcases List.mem_map.1 hx with ⟨g, hg, rfl⟩
      have := List.of_mem_filter hg
      simpa using this
    have hle : (fl.map Game.gameId).length ≤ top.length :=
      List.Subperm.length_le (List.subperm_of_subset hidnd hsub)
    rw [List.length_map] at hle ⊢
    exact le_trans hle (le_trans (le_of_eq rfl) (nlargestKeys_length_le n _))

/-! ### C1 -/

/-- C1: every list returned by `HybridRecommender.recommend` has
pairwise-distinct titles and length at most `n`, and its length is exactly
`n` whenever the content-based and collaborative sub-lists together
contain at least `n` distinct titles. -/
theorem recommend_nodup_and_bounded (s : HybridRecommender) (u : Nat) (t : String) (n : Nat)
    (l : List String) (h : s.recommend u t n = .ok l) :
    l.Nodup ∧ l.length ≤ n ∧
      (∀ c k, s.content_recommender.recommend t n = .ok c →
        s.collabRecommend u n = .ok k →
        n ≤ (c ++ k).toFinset.card → l.length = n) := by
  cases hc : s.content_recommender.recommend t n with
  | error e => rw [recommend_content_error s u n t e hc] at h; cases h
  | ok c0 =>
    cases hk : s.collabRecommend u n with
    | error e => rw [recommend_collab_error s u n t c0 e hc hk] at h; cases h
    | ok k0 =>
      rw [recommend_ok_eq s u n t c0 k0 hc hk] at h
      obtain rfl : (dedupFirst (c0 ++ k0)).take n = l := Except.ok.inj h
      refine ⟨?_, List.length_take_le _ _, ?_⟩
      · exact List.Nodup.sublist (List.take_sublist _ _) (nodup_dedupFirst _)
      · intro c k hcc hkk hcard
        have hc2 : c = c0 := (Except.ok.inj hcc).symm
        have hk2 : k = k0 := (Except.ok.inj hkk).symm
        subst hc2
        subst hk2
        rw [List.length_take]
        have hlen : n ≤ (dedupFirst (c ++ k)).length := by
          rw [length_dedupFirst]; exact hcard
        omega

/-- Witness for C1 at the fully fitted fixture: the hybrid output for the
unknown seed `"Z"` and known user `7` is the collaborative pair
`["A", "B"]`, with both sub-lists supplying `2` distinct titles. -/
theorem recommend_nodup_and_bounded_witness :
    (["A", "B"] : List String).Nodup ∧ (["A", "B"] : List String).length ≤ 2 ∧
      (["A", "B"] : List String).length = 2 := by
  have h := recommend_nodup_and_bounded stABC 7 "Z" 2 ["A", "B"] (by decide)
  exact ⟨h.1, h.2.1, h.2.2 [] ["A", "B"] (by decide) (by decide) (by decide)⟩

/-! ### C2 -/

/-- C2 counterexample: over the catalog `gamesAAB` — in which two distinct
rows share the title `"A"` — the content-based list for the (unique) seed
title `"B"` is `["A", "A"]`, but the hybrid output for an unknown user is
the deduplicated, shorter `["A"]`, so `recommend` is not *exactly* the
content-based recommendation list.  (The two `"A"` rows tie at cosine
similarity `1`; either tie order yields the same pair of equal titles, so
the counterexample does not depend on the modelled tie order.) -/
theorem recommend_not_exactly_content_cex :
    stAAB.recommend 0 "B" 2 = .ok ["A"] ∧
    stAAB.content_recommender.recommend "B" 2 = .ok ["A", "A"] ∧
    stAAB.nmf_model = none :=
  ⟨by decide, by decide, rfl⟩

/-- C2 amended: over a well-formed games table (pairwise-distinct titles
and ids, also in the content recommender's copy) and for `n ≥ 1`: if the
factor model is unfitted or the user is absent from `user_mapper`,
`recommend` returns exactly the content-based result; and if the seed
title is absent from the text index, `recommend` returns exactly the
collaborative result.  (Without the distinctness hypotheses the final
deduplication can shorten the list — see the counterexample.) -/
theorem recommend_graceful_degradation (s : HybridRecommender) (u n : Nat) (t : String)
    (hn : 1 ≤ n)
    (htitles : (s.games_df.map Game.title).Nodup)
    (hctitles : (s.content_recommender.games_df.map Game.title).Nodup)
    (hids : (s.games_df.map Game.gameId).Nodup) :
    ((s.nmf_model = none ∨ ∃ model um, s.nmf_model = some model ∧ s.user_mapper = some um ∧
        listLookup um u = none) →
      s.recommend u t n = s.content_recommender.recommend t n) ∧
    (∀ gi, s.content_recommender.game_indices = some gi →
      (lookupTitleIdxs gi t).isEmpty = true →
      s.recommend u t n = s.collabRecommend u n) := by
  constructor
  · intro hcase
    have hk : s.collabRecommend u n = .ok [] := by
      rcases hcase with hm | ⟨model, um, hm, hum, hu⟩
      · exact collabRecommend_no_model s u n hm
      · exact collabRecommend_unknown_user s u n model um hm hum hu
    cases hc : s.content_recommender.recommend t n with
    | error e => exact recommend_content_error s u n t e hc
    | ok c =>
      rw [recommend_ok_eq s u n t c [] hc hk]
      rw [List.append_nil]
      rw [dedupFirst_eq_self (content_recommend_nodup s.content_recommender t n c hctitles hc)]
      rw [List.take_of_length_le (content_recommend_length_le s.content_recommender t c hn hc)]
  · intro gi hgi hempty
    have hc : s.content_recommender.recommend t n = .ok [] :=
      content_recommend_missing_eq s.content_recommender t n gi hgi hempty
    cases hk : s.collabRecommend u n with
    | error e => exact recommend_collab_error s u n t [] e hc hk
    | ok k =>
      rw [recommend_ok_eq s u n t [] k hc hk]
      rw [List.nil_append]
      rw [dedupFirst_eq_self (collabRecommend_nodup s u n k htitles hk)]
      rw [List.take_of_length_le (collabRecommend_length_le s u n k hids hk)]

/-- Witness for the amended C2 at the fully fitted fixture: user `99` is
unknown to the factor model, and seed `"Z"` is absent from the text
index. -/
theorem recommend_graceful_degradation_witness :
    stABC.recommend 99 "A" 2 = stABC.content_recommender.recommend "A" 2 ∧
    stABC.recommend 7 "Z" 2 = stABC.collabRecommend 7 2 := by
  constructor
  · exact (recommend_graceful_degradation stABC 99 2 "A" (by decide) (by decide) (by decide)
      (by decide)).1 (Or.inr ⟨nmfModelC4, [(7, 0), (8, 1)], rfl, by decide, by decide⟩)
  · exact (recommend_graceful_degradation stABC 7 2 "Z" (by decide) (by decide) (by decide)
      (by decide)).2 [("A", 0), ("B", 1), ("C", 2)] (by decide) (by decide)

/-! ### C3 -/

/-- C3 (code bug): on the two-game catalog `gamesAB` (identical genre
text), the content query for seed `"A"` with `n = 2` returns
`["B", "A"]` — the seed's own title appears in its own content-based
result list.  The code zeroes the seed's similarity entry
(`sim_scores[idx] = 0`, commented `# exclude self` at line 142) but leaves
the seed row in the candidate pool, so whenever the top-`n` argsort window
reaches zero-similarity entries the seed itself is returned, contradicting
the intended self-exclusion. -/
theorem content_includes_seed_title_cex :
    stAB.content_recommender.recommend "A" 2 = .ok ["B", "A"] ∧
    "A" ∈ (["B", "A"] : List String) :=
  ⟨by decide, by decide⟩

/-! ### C4 -/

/-- Title of the first games-table row carrying the given item id (the
lookup through which the spec's `topN` — and the evaluator's seed
selection — resolve an id to a title). -/
def firstTitleOf (games : List Game) (gid : Nat) : Option String :=
  ((games.filter (fun g => g.gameId == gid)).head?).map Game.title

/-- Refinement-comparison target for C4, following the spec's words (§4.2
`topN`): "ranks all items by predicted affinity descending, removes items
the user has already rated, and returns the top `n` titles" — the titles
stand in affinity order.  It shares the embedded score pipeline
(`collabTopIds`) with the code and differs only in how ids become
titles. -/
def spec_topN_titles (games : List Game) (ratings : List Rating) (model : NMFModel)
    (gm : List (Nat × Nat)) (user_vector : List ℚ) (user_id n : Nat) : List String :=
  (collabTopIds ratings model gm user_vector user_id n).filterMap (firstTitleOf games)

/-- C4 counterexample: in the fitted fixture `stABC`, user `7`'s top-2
unrated item ids by predicted affinity are `[2, 1]` — titles
`["B", "A"]` in affinity-descending order — but the code reads titles off
`games_df` filtered by id membership, yielding games-table order
`["A", "B"]`: the collaborative portion is not ordered by predicted
affinity descending. -/
theorem collab_order_cex :
    stABC.recommend 7 "Z" 2 = .ok ["A", "B"] ∧
    stABC.collabRecommend 7 2 = .ok ["A", "B"] ∧
    collabTopIds ratingsC4 nmfModelC4 [(3, 0), (1, 1), (2, 2)] [4, 0, 0] 7 2 = [2, 1] ∧
    spec_topN_titles gamesABC ratingsC4 nmfModelC4 [(3, 0), (1, 1), (2, 2)] [4, 0, 0] 7 2
      = ["B", "A"] ∧
    stABC.nmf_model = some nmfModelC4 ∧
    stABC.game_mapper = some [(3, 0), (1, 1), (2, 2)] ∧
    stABC.user_item_matrix = some [[4, 0, 0], [0, 3, 3]] ∧
    (["A", "B"] : List String) ≠ ["B", "A"] :=
  ⟨by decide, by decide, by decide, by decide, rfl, by decide, by decide, by decide⟩

theorem filter_gameId_eq_single :
    ∀ (games : List Game), (games.map Game.gameId).Nodup → ∀ g ∈ games,
      games.filter (fun g2 => g2.gameId == g.gameId) = [g]
  | [], _, g, hg => by cases hg
  | a :: tl, hids, g, hg => by
    have hnd : (a.gameId :: tl.map Game.gameId).Nodup := by simpa using hids
    rcases List.mem_cons.1 hg with rfl | hgtl
    · rw [List.filter_cons_of_pos (by simp)]
      congr 1
      apply List.filter_eq_nil_iff.2
      intro b hb
      simp only [beq_iff_eq]
      intro hbeq
      exact (List.nodup_cons.1 hnd).1 (List.mem_map.2 ⟨b, hb, hbeq⟩)
    · have hne : (a.gameId == g.gameId) = false := by
        simp only [beq_eq_false_iff_ne, ne_eq]
        intro he
        exact (List.nodup_cons.1 hnd).1 (he ▸ List.mem_map.2 ⟨g, hgtl, rfl⟩)
      rw [List.filter_cons_of_neg (by simp [hne])]
      exact filter_gameId_eq_single tl (List.nodup_cons.1 hnd).2 g hgtl

/-- C4 amended: for a fitted model and known user, the collaborative
portion consists — as a set — of the titles of the top-`n` items by
predicted affinity (transformed user factor row times item factor matrix)
after removing every item the user has already rated; but the titles
stand in games-table row order, not in affinity-descending order (see the
counterexample). -/
theorem collab_topn_set (s : HybridRecommender) (u n : Nat)
    (model : NMFModel) (um gm : List (Nat × Nat)) (uidx : Nat)
    (mat : List (List ℚ)) (vec : List ℚ)
    (hm : s.nmf_model = some model) (hum : s.user_mapper = some um)
    (hu : listLookup um u = some uidx) (hmat : s.user_item_matrix = some mat)
    (hvec : mat[uidx]? = some vec) (hgm : s.game_mapper = some gm)
    (hids : (s.games_df.map Game.gameId).Nodup) :
    ∃ k, s.collabRecommend u n = .ok k ∧
      k.toFinset = (spec_topN_titles s.games_df s.ratings_df model gm vec u n).toFinset := by
  refine ⟨_, collabRecommend_known_eq s u n model um gm uidx mat vec hm hum hu hmat hvec hgm, ?_⟩
  ext x
  simp only [List.mem_toFinset, spec_topN_titles, List.mem_filterMap, List.mem_map]
  constructor
  · rintro ⟨g, hg, rfl⟩
    have hgmem := List.mem_filter.1 hg
    have hgin : g.gameId ∈ collabTopIds s.ratings_df model gm vec u n := by
      simpa using hgmem.2
    refine ⟨g.gameId, hgin, ?_⟩
    rw [firstTitleOf, filter_gameId_eq_single s.games_df hids g hgmem.1]
    rfl
  · rintro ⟨gid, hgid, hfirst⟩
    rw [firstTitleOf] at hfirst
    cases hh : (s.games_df.filter (fun g2 => g2.gameId == gid)).head? with
    | none => rw [hh] at hfirst; cases hfirst
    | some g0 =>
      rw [hh] at hfirst
      obtain rfl : g0.title = x := Option.some.inj hfirst
      have hg0 : g0 ∈ s.games_df.filter (fun g2 => g2.gameId == gid) :=
        List.mem_of_mem_head? (by rw [hh]; rfl)
      have hsplit := List.mem_filter.1 hg0
      have hid : g0.gameId = gid := by simpa using hsplit.2
      exact ⟨g0, List.mem_filter.2 ⟨hsplit.1, by simp [hid, hgid]⟩, rfl⟩

/-- Witness for the amended C4 at the fitted fixture. -/
theorem collab_topn_set_witness :
    stABC.collabRecommend 7 2 = .ok ["A", "B"] ∧
    (["A", "B"] : List String).toFinset
      = (spec_topN_titles gamesABC ratingsC4 nmfModelC4
          [(3, 0), (1, 1), (2, 2)] [4, 0, 0] 7 2).toFinset := by
  obtain ⟨k, hk, hset⟩ := collab_topn_set stABC 7 2 nmfModelC4 [(7, 0), (8, 1)]
    [(3, 0), (1, 1), (2, 2)] 0 [[4, 0, 0], [0, 3, 3]] [4, 0, 0]
    rfl (by decide) (by decide) (by decide) (by decide) (by decide) (by decide)
  have hcomp : stABC.collabRecommend 7 2 = .ok ["A", "B"] := by decide
  have hk2 : k = ["A", "B"] := Except.ok.inj (hk.symm.trans hcomp)
  subst hk2
  exact ⟨hcomp, hset⟩

/-! ### C5 -/

/-- The content query only reads the games table through its title column
(row count and per-row titles), so two content states differing only in
other columns — for instance the fit-time `fillna` on genres — answer
identically. -/
theorem content_recommend_titles_congr (g1 g2 : List Game)
    (tm : Option (List (List ℚ))) (gi : Option (List (String × Nat)))
    (t : String) (n : Nat)
    (h : g1.map Game.title = g2.map Game.title) :
    ContentRec.recommend ⟨g1, tm, gi⟩ t n = ContentRec.recommend ⟨g2, tm, gi⟩ t n := by
  have hlen : g1.length = g2.length := by
    have := congrArg List.length h
    simpa using this
  have htail : ∀ i : Nat,
      ((g1[i]?).map Game.title).getD "" = ((g2[i]?).map Game.title).getD "" := by
    intro i
    rw [← List.getElem?_map, ← List.getElem?_map, h]
  unfold ContentRec.recommend
  cases gi with
  | none => rfl
  | some gl =>
    by_cases he : (lookupTitleIdxs gl t).isEmpty
    · simp [he]
    · cases tm with
      | none => simp [he]
      | some tmv =>
        simp only [he, Bool.false_eq_true, if_false]
        congr 1
        unfold contentTopTitles
        rw [hlen]
        exact List.map_congr_left (fun i _ => htail i)

/-- C5: loading a saved artifact reconstructs a recommender whose
`recommend` output is identical to the original's for every probe triple.
The hypothesis is the (fit-established) consistency fact that the content
copy of the games table carries the same title column as the outer one:
`load` rebuilds the content recommender from the outer table, whereas the
original's copy had been through `reset_index`/`fillna`, which only touch
the genres column. -/
theorem save_load_roundtrip (s : HybridRecommender) (u : Nat) (t : String) (n : Nat)
    (hfit : s.content_recommender.games_df.map Game.title = s.games_df.map Game.title) :
    (HybridRecommender.load s.save).recommend u t n = s.recommend u t n := by
  have hcontent : (HybridRecommender.load s.save).content_recommender.recommend t n
      = s.content_recommender.recommend t n := by
    show ContentRec.recommend
      ⟨s.games_df, s.content_recommender.tfidf_matrix, s.content_recommender.game_indices⟩ t n
      = ContentRec.recommend s.content_recommender t n
    have hcongr := content_recommend_titles_congr s.games_df s.content_recommender.games_df
      s.content_recommender.tfidf_matrix s.content_recommender.game_indices t n hfit.symm
    exact hcongr
  unfold HybridRecommender.recommend
  rw [hcontent]
  have hcollab : (HybridRecommender.load s.save).collabRecommend u n = s.collabRecommend u n := rfl
  rw [hcollab]

/-- The hypothesis of `save_load_roundtrip` is established by construction
and fit: on any freshly constructed and (arbitrarily) fitted instance, the
content copy of the games table carries the same title column as the outer
table. -/
theorem init_fit_title_column (games : List Game) (ratings : List Rating)
    (rc rn : Bool) (tf : List String → List (List ℚ)) (nm : List (List ℚ) → NMFModel) :
    ((HybridRecommender.init games ratings).fit rc rn tf nm).content_recommender.games_df.map
        Game.title
      = ((HybridRecommender.init games ratings).fit rc rn tf nm).games_df.map Game.title := by
  cases rc <;> cases rn <;>
    simp [HybridRecommender.fit, HybridRecommender.init, ContentRec.fit, List.map_map,
      Function.comp]

/-- A catalog with a missing (`NaN`) genre cell: after content fit the
internal copy differs from the outer table (genres filled with `""`), so
the loaded instance is rebuilt from genuinely different row data. -/
def gamesNaN : List Game := [⟨1, "A", none⟩, ⟨2, "B", some "action"⟩]

/-- Content-only fitted recommender over `gamesNaN`. -/
def stNaN : HybridRecommender := (HybridRecommender.init gamesNaN []).fit true false tfidf2 nmfFitC4

/-- Witness for C5 on the `NaN`-genre fixture (where the content copy and
the outer games table really differ). -/
theorem save_load_roundtrip_witness :
    (HybridRecommender.load stNaN.save).recommend 0 "A" 2 = stNaN.recommend 0 "A" 2 :=
  save_load_roundtrip stNaN 0 "A" 2 (by decide)

/-! ### C6 -/

/-- C6 counterexample: a blender error for the (single) sampled user aborts
the whole batch call — the result is the propagated error, not a map with
an empty list recorded for that user. -/
theorem batch_error_aborts_cex :
    generate_all_recommendations rmTest (fun _ _ => .error "boom")
      [⟨1, "A", none⟩] [⟨5, 1, 3⟩] 0 1 42 50 = .error "boom" := by decide

/-- C6 amended: the per-user loop body has no `try/except`.  The batch
returns a map only when seed selection, the blender call and the progress
check succeed for every sampled user; in that case every sampled user is
recorded, and the entry is the blender's own (possibly empty) list —
`recs if recs else []` is the identity on lists.  An error from the
blender aborts the remainder of the batch instead of becoming an empty
entry (counterexample above); only the surrounding job handler catches
it. -/
theorem evalTrace_ok_entries (rm : RngModel)
    (recommend : Nat → String → Except String (List String))
    (games : List Game) (ratings : List Rating) (job_id pstep total : Nat) :
    ∀ (users : List Nat) (i st : Nat) (l : List (Nat × String × List String)),
      evalTrace rm recommend games ratings job_id pstep total users i st = .ok l →
      l.map (fun e => e.1) = users ∧ ∀ e ∈ l, recommend e.1 e.2.1 = .ok e.2.2 := by
  intro users
  induction users with
  | nil =>
    intro i st l h
    simp only [evalTrace] at h
    obtain rfl : l = [] := (Except.ok.inj h).symm
    exact ⟨rfl, by simp⟩
  | cons u rest ih =>
    intro i st l h
    cases hcs : chooseSeed rm games ratings u st with
    | error e => simp [evalTrace, hcs] at h
    | ok pr =>
      obtain ⟨seed, st1⟩ := pr
      cases hrec : recommend u seed with
      | error e => simp [evalTrace, hcs, hrec] at h
      | ok recs =>
        cases hpc : progressCheck job_id i pstep total with
        | error e => simp [evalTrace, hcs, hrec, hpc] at h
        | ok unitv =>
          cases htail : evalTrace rm recommend games ratings job_id pstep total rest (i + 1) st1 with
          | error e => simp [evalTrace, hcs, hrec, hpc, htail] at h
          | ok tail =>
            have hl : l = (u, seed, if recs.isEmpty then [] else recs) :: tail := by
              have h2 := h
              simp only [evalTrace, hcs, hrec, hpc, htail] at h2
              exact (Except.ok.inj h2).symm
            subst hl
            obtain ⟨ih1, ih2⟩ := ih (i + 1) st1 tail htail
            refine ⟨by simp [ih1], ?_⟩
            intro e he
            rcases List.mem_cons.1 he with rfl | he2
            · cases recs with
              | nil => simpa using hrec
              | cons a as => simpa using hrec
            · exact ih2 e he2

/-- Witness for the amended C6: a completed one-user batch in which the
blender returned the empty list — the user is recorded with that (empty)
output verbatim. -/
theorem evalTrace_ok_entries_witness :
    (([((5 : Nat), ("A", ([] : List String)))]).map (fun e => e.1) = [5]) ∧
    recConst 5 "A" = .ok [] := by
  have h := evalTrace_ok_entries rmTest recConst [⟨1, "A", none⟩] [⟨5, 1, 3⟩] 0 1 1
    [5] 1 42 [(5, "A", [])] (by decide)
  exact ⟨h.1, h.2 (5, "A", []) (by simp)⟩

/-! ### C9 -/

/-- Every successfully chosen seed follows the selection policy: drawn
from the user's liked interactions when any exist (resolved to the first
matching games row's title), otherwise from the full catalog. -/
theorem chooseSeed_policy (rm : RngModel) (games : List Game) (ratings : List Rating)
    (u st : Nat) (seed : String) (st1 : Nat)
    (h : chooseSeed rm games ratings u st = .ok (seed, st1)) :
    (likedRatings ratings u ≠ [] →
      ∃ r ∈ likedRatings ratings u, firstTitleOf games r.gameId = some seed) ∧
    (likedRatings ratings u = [] → seed ∈ games.map Game.title) := by
  by_cases he : (likedRatings ratings u).isEmpty
  · have hnil : likedRatings ratings u = [] := List.isEmpty_iff.1 he
    cases hg : games[rm.pickIdx (rm.integers st).1 games.length]? with
    | none => simp [chooseSeed, he, hg] at h
    | some g =>
      have hseed : g.title = seed := by
        have h2 := h
        simp only [chooseSeed, he, if_true, hg] at h2
        exact congrArg Prod.fst (Except.ok.inj h2)
      constructor
      · intro hne; exact absurd hnil hne
      · intro _
        have hmem : g ∈ games := by
          obtain ⟨hlt, heq⟩ := List.getElem?_eq_some.1 hg
          exact heq ▸ List.getElem_mem hlt
        exact hseed ▸ List.mem_map.2 ⟨g, hmem, rfl⟩
  · have hlen : 0 < (likedRatings ratings u).length := by
      cases hl : likedRatings ratings u with
      | nil => rw [hl] at he; simp at he
      | cons a l => simp
    have hlt := rm.pick_lt (rm.integers st).1 _ hlen
    have hsome : (likedRatings ratings u)[rm.pickIdx (rm.integers st).1
        (likedRatings ratings u).length]?
        = some ((likedRatings ratings u)[rm.pickIdx (rm.integers st).1
          (likedRatings ratings u).length]) :=
      List.getElem?_eq_getElem hlt
    cases hh : (games.filter (fun g =>
        g.gameId == ((likedRatings ratings u)[rm.pickIdx (rm.integers st).1
          (likedRatings ratings u).length]).gameId)).head? with
    | none => simp [chooseSeed, he, hsome, hh] at h
    | some g =>
      have hseed : g.title = seed := by
        have h2 := h
        simp only [chooseSeed, he, if_false, hsome, hh] at h2
        exact congrArg Prod.fst (Except.ok.inj h2)
      constructor
      · intro _
        refine ⟨(likedRatings ratings u)[rm.pickIdx (rm.integers st).1
          (likedRatings ratings u).length], List.getElem_mem hlt, ?_⟩
        rw [firstTitleOf, hh]
        exact congrArg some hseed
      · intro hnil
        rw [hnil] at hlen
        simp at hlen

/-- Every entry of a completed batch trace carries a policy-conforming
seed. -/
theorem evalTrace_policy (rm : RngModel)
    (recommend : Nat → String → Except String (List String))
    (games : List Game) (ratings : List Rating) (job_id pstep total : Nat) :
    ∀ (users : List Nat) (i st : Nat) (l : List (Nat × String × List String)),
      evalTrace rm recommend games ratings job_id pstep total users i st = .ok l →
      ∀ e ∈ l, (likedRatings ratings e.1 ≠ [] →
          ∃ r ∈ likedRatings ratings e.1, firstTitleOf games r.gameId = some e.2.1) ∧
        (likedRatings ratings e.1 = [] → e.2.1 ∈ games.map Game.title) := by
  intro users
  induction users with
  | nil =>
    intro i st l h
    simp only [evalTrace] at h
    obtain rfl : l = [] := (Except.ok.inj h).symm
    simp
  | cons u rest ih =>
    intro i st l h
    cases hcs : chooseSeed rm games ratings u st with
    | error e => simp [evalTrace, hcs] at h
    | ok pr =>
      obtain ⟨seed, st1⟩ := pr
      cases hrec : recommend u seed with
      | error e => simp [evalTrace, hcs, hrec] at h
      | ok recs =>
        cases hpc : progressCheck job_id i pstep total with
        | error e => simp [evalTrace, hcs, hrec, hpc] at h
        | ok unitv =>
          cases htail : evalTrace rm recommend games ratings job_id pstep total rest (i + 1) st1 with
          | error e => simp [evalTrace, hcs, hrec, hpc, htail] at h
          | ok tail =>
            have hl : l = (u, seed, if recs.isEmpty then [] else recs) :: tail := by
              have h2 := h
              simp only [evalTrace, hcs, hrec, hpc, htail] at h2
              exact (Except.ok.inj h2).symm
            subst hl
            intro e he
            rcases List.mem_cons.1 he with rfl | he2
            · exact chooseSeed_policy rm games ratings u st seed st1 hcs
            · exact ih (i + 1) st1 tail htail e he2

/-- The `(user, seed)` selection of the batch loop does not depend on the
injected blender: two error-free recommenders yield the same projected
trace (the generator state is threaded only through seed selection). -/
theorem evalTrace_seed_determinism (rm : RngModel)
    (games : List Game) (ratings : List Rating) (job_id pstep total : Nat)
    (rec1 rec2 : Nat → String → Except String (List String))
    (h1 : ∀ u t, ∃ v, rec1 u t = .ok v) (h2 : ∀ u t, ∃ v, rec2 u t = .ok v) :
    ∀ (users : List Nat) (i st : Nat),
      Except.map (List.map (fun e => (e.1, e.2.1)))
        (evalTrace rm rec1 games ratings job_id pstep total users i st)
      = Except.map (List.map (fun e => (e.1, e.2.1)))
        (evalTrace rm rec2 games ratings job_id pstep total users i st) := by
  intro users
  induction users with
  | nil => intro i st; rfl
  | cons u rest ih =>
    intro i st
    cases hcs : chooseSeed rm games ratings u st with
    | error e => simp [evalTrace, hcs]
    | ok pr =>
      obtain ⟨seed, st1⟩ := pr
      obtain ⟨v1, hv1⟩ := h1 u seed
      obtain ⟨v2, hv2⟩ := h2 u seed
      cases hpc : progressCheck job_id i pstep total with
      | error e => simp [evalTrace, hcs, hv1, hv2, hpc]
      | ok unitv =>
        have hih := ih (i + 1) st1
        cases ht1 : evalTrace rm rec1 games ratings job_id pstep total rest (i + 1) st1 with
        | error e1 =>
          cases ht2 : evalTrace rm rec2 games ratings job_id pstep total rest (i + 1) st1 with
          | error e2 =>
            rw [ht1, ht2] at hih
            have he : e1 = e2 := by simpa [Except.map] using hih
            simp [evalTrace, hcs, hv1, hv2, hpc, ht1, ht2, he]
          | ok t2 =>
            rw [ht1, ht2] at hih
            simp [Except.map] at hih
        | ok t1 =>
          cases ht2 : evalTrace rm rec2 games ratings job_id pstep total rest (i + 1) st1 with
          | error e2 =>
            rw [ht1, ht2] at hih
            simp [Except.map] at hih
          | ok t2 =>
            rw [ht1, ht2] at hih
            have ht : t1.map (fun e => (e.1, e.2.1)) = t2.map (fun e => (e.1, e.2.1)) := by
              simpa [Except.map] using hih
            simp only [evalTrace, hcs, hv1, hv2, hpc, ht1, ht2, Except.map, List.map_cons]
            rw [ht]

/-- C9: two runs of `generate_all_recommendations` over the same tables
with the same `random_state` and `max_users` make the identical selection:
the same sampled-user list and the same seed title per user — whatever the
(error-free) blender computes — and each selected seed is drawn from the
user's liked interactions when any exist, otherwise from the catalog. -/
theorem sample_and_seed_determinism (rm : RngModel)
    (games : List Game) (ratings : List Rating)
    (job_id pstep max_users random_state : Nat)
    (rec1 rec2 : Nat → String → Except String (List String))
    (h1 : ∀ u t, ∃ v, rec1 u t = .ok v) (h2 : ∀ u t, ∃ v, rec2 u t = .ok v) :
    seedTrace rm rec1 games ratings job_id max_users random_state pstep
      = seedTrace rm rec2 games ratings job_id max_users random_state pstep ∧
    (∀ l, seedTrace rm rec1 games ratings job_id max_users random_state pstep = .ok l →
      ∀ e ∈ l, (likedRatings ratings e.1 ≠ [] →
          ∃ r ∈ likedRatings ratings e.1, firstTitleOf games r.gameId = some e.2) ∧
        (likedRatings ratings e.1 = [] → e.2 ∈ games.map Game.title)) := by
  constructor
  · exact evalTrace_seed_determinism rm games ratings job_id pstep
      (sampledUsers rm ratings max_users random_state).1.length rec1 rec2 h1 h2
      (sampledUsers rm ratings max_users random_state).1 1
      (sampledUsers rm ratings max_users random_state).2
  · intro l hl e he
    rw [seedTrace] at hl
    cases hev : evalTrace rm rec1 games ratings job_id pstep
        (sampledUsers rm ratings max_users random_state).1.length
        (sampledUsers rm ratings max_users random_state).1 1
        (sampledUsers rm ratings max_users random_state).2 with
    | error e2 => rw [hev] at hl; simp [Except.map] at hl
    | ok l0 =>
      rw [hev] at hl
      have hproj : l0.map (fun e => (e.1, e.2.1)) = l := by simpa [Except.map] using hl
      rw [← hproj] at he
      obtain ⟨e0, he0, rfl⟩ := List.mem_map.1 he
      exact evalTrace_policy rm rec1 games ratings job_id pstep _ _ 1 _ l0 hev e0 he0

/-- Witness for C9: two runs with different (total) blender stubs make the
same selection. -/
theorem sample_and_seed_determinism_witness :
    seedTrace rmTest recConst [⟨1, "A", none⟩] [⟨5, 1, 3⟩] 0 1 42 1
      = seedTrace rmTest recConstA [⟨1, "A", none⟩] [⟨5, 1, 3⟩] 0 1 42 1 :=
  (sample_and_seed_determinism rmTest [⟨1, "A", none⟩] [⟨5, 1, 3⟩] 0 1 1 42
    recConst recConstA (fun _ _ => ⟨[], rfl⟩) (fun _ _ => ⟨["A"], rfl⟩)).1

/-! ### C10 -/

theorem progressCheck_zero_error (job_id i total : Nat) (hjob : job_id ≠ 0) :
    progressCheck job_id i 0 total
      = .error "ZeroDivisionError: integer division or modulo by zero" := by
  simp [progressCheck, hjob]

/-- With a truthy job id and zero cadence, the loop crashes inside its
first iteration (after seed selection and the blender call): no user list
headed by any user can complete. -/
theorem evalTrace_pstep_zero (rm : RngModel)
    (recommend : Nat → String → Except String (List String))
    (games : List Game) (ratings : List Rating) (job_id total : Nat) (hjob : job_id ≠ 0) :
    ∀ (u : Nat) (rest : List Nat) (i st : Nat) (l : List (Nat × String × List String)),
      evalTrace rm recommend games ratings job_id 0 total (u :: rest) i st ≠ .ok l := by
  intro u rest i st l h
  cases hcs : chooseSeed rm games ratings u st with
  | error e => simp [evalTrace, hcs] at h
  | ok pr =>
    obtain ⟨seed, st1⟩ := pr
    cases hrec : recommend u seed with
    | error e => simp [evalTrace, hcs, hrec] at h
    | ok recs =>
      simp [evalTrace, hcs, hrec, progressCheck_zero_error job_id i total hjob] at h

/-- C10: `generate_all_recommendations` is total only under
`progress_step ≥ 1` — with a truthy `job_id`, a non-empty user sample and
`progress_step = 0` the cadence check `i % progress_step` divides by zero
and the call never returns a result; and the API caller's cadence
`int(max_users/100)` is `0` exactly when `max_users < 100`. -/
theorem progress_step_zero_fails (rm : RngModel)
    (recommend : Nat → String → Except String (List String))
    (games : List Game) (ratings : List Rating) (job_id max_users random_state : Nat)
    (hjob : job_id ≠ 0)
    (hsample : (sampledUsers rm ratings max_users random_state).1 ≠ []) :
    (∀ l, generate_all_recommendations rm recommend games ratings job_id max_users
        random_state 0 ≠ .ok l) ∧
    (∀ m : Nat, api_progress_step m = 0 ↔ m < 100) := by
  constructor
  · intro l hok
    simp only [generate_all_recommendations] at hok
    cases husers : (sampledUsers rm ratings max_users random_state).1 with
    | nil => exact hsample husers
    | cons u rest =>
      rw [husers] at hok
      cases hev : evalTrace rm recommend games ratings job_id 0 (u :: rest).length
          (u :: rest) 1 (sampledUsers rm ratings max_users random_state).2 with
      | error e => rw [hev] at hok; simp [Except.map] at hok
      | ok l0 =>
        exact evalTrace_pstep_zero rm recommend games ratings job_id _ hjob u rest 1 _ l0 hev
  · intro m
    rw [api_progress_step]
    exact Nat.div_eq_zero_iff (by norm_num)

/-- Witness for C10 at `max_users = 1 < 100` style data: a one-user batch
with `job_id = 9` and cadence `0` cannot complete, and `int(50/100) = 0`. -/
theorem progress_step_zero_fails_witness :
    (generate_all_recommendations rmTest recConst [⟨1, "A", none⟩] [⟨5, 1, 3⟩] 9 1 42 0
      ≠ .ok []) ∧ (api_progress_step 50 = 0 ↔ 50 < 100) := by
  have h := progress_step_zero_fails rmTest recConst [⟨1, "A", none⟩] [⟨5, 1, 3⟩] 9 1 42
    (by decide) (by decide)
  exact ⟨h.1 [], h.2 50⟩

/-! ### C7 -/

/-- C7 (code bug): with the one-game catalog `[(1, "A")]` — whose single
Precision@k column `0` is game `1` — and user `7` who likes game `1` but
whose recommendation list is EMPTY, `calculate_precision_at_k` returns
`1.0` instead of excluding the user (and, with no user carrying a
non-empty list, returning `0.0`).  The user's `rec_matrix` row is all
`np.zeros` padding; every padded `0` passes the `>= 0` validity test and
indexes column `0`, producing `k` phantom hits. -/
theorem precision_counts_empty_user_cex :
    calculate_precision_at_k [⟨1, "A", some "x"⟩] [⟨7, 1, 3⟩] [(7, [])] 10 = 1 := by decide

/-! ### C8 -/

/-- C8: the two halves of `fit` are independent: refitting only the
content half (`refit_content=True, refit_nmf=False`) leaves all five
collaborative attributes untouched, and refitting only the factor half
(`refit_content=False, refit_nmf=True`) leaves the fitted TF-IDF matrix
and the title index untouched. -/
theorem fit_frame (s : HybridRecommender)
    (tf : List String → List (List ℚ)) (nmfFit : List (List ℚ) → NMFModel) :
    ((s.fit true false tf nmfFit).nmf_model = s.nmf_model ∧
      (s.fit true false tf nmfFit).user_mapper = s.user_mapper ∧
      (s.fit true false tf nmfFit).game_mapper = s.game_mapper ∧
      (s.fit true false tf nmfFit).game_inv_mapper = s.game_inv_mapper ∧
      (s.fit true false tf nmfFit).user_item_matrix = s.user_item_matrix) ∧
    ((s.fit false true tf nmfFit).content_recommender.tfidf_matrix
        = s.content_recommender.tfidf_matrix ∧
      (s.fit false true tf nmfFit).content_recommender.game_indices
        = s.content_recommender.game_indices) :=
  ⟨⟨rfl, rfl, rfl, rfl, rfl⟩, ⟨rfl, rfl⟩⟩

end SteamRec
